import Mathlib

/-!
Verification development for the two build scripts of `gemini-xo`:
`scripts/build-single-file.js` (namespace `SF`) and
`scripts/build-standalone.js` (namespace `ST`).

Each script is embedded as a pure function from an environment `Env`
(which files exist on disk, which external commands succeed) and an
argument list to a trace of observable effects (`List Ev`) together with
the process exit code.  File-system effects are given a semantics
`applyEvents` over a map from paths to file contents, so frame and
clean-slate properties can be stated about real file-system states.

Paths are modelled as lists of components (`join a b` in the scripts is
`a ++ [b]` here).  `String.startsWith`/`String.endsWith` of JavaScript
are embedded as `strHasPrefix`/`strHasSuffix` over the character lists
of the strings.  Console messages that no property depends on (progress
logs, the "Command failed" report inside `run`) are not given events;
the error/usage messages that the spec talks about are modelled exactly.
-/

/-- File-system paths, as lists of path components. -/
abbrev FPath := List String

/-- Observable effects of a script run: file-system operations, external
command invocations, and the console error/log/warn messages the spec
mentions. -/
inductive Ev where
  | checkExists : FPath → Ev
  | rmTree : FPath → Ev
  | mkdir : FPath → Ev
  | runCmd : String → Ev
  | writeFile : FPath → String → Ev
  | copyFile : FPath → FPath → Ev
  | warn : String → Ev
  | error : String → Ev
  | log : String → Ev
deriving DecidableEq, Repr

/-- Control outcome of a piece of script: normal return, `process.exit`
with a code, or a thrown JavaScript exception. -/
inductive Ctl (α : Type) where
  | ok : α → Ctl α
  | exited : Nat → Ctl α
  | threw : Ctl α
deriving DecidableEq, Repr

/-- The environment a run executes in: host platform/arch, which files
and directories exist, and which external commands succeed.  `pkgFault`
models a file-system error thrown while `buildPackage` copies the bundle
files; `addonFault` models a file-system error thrown inside the
`try` block of `copyNativeAddons` (at the `readdirSync` step). -/
structure Env where
  hostPlatform : String
  hostArch : String
  bunAvailable : Bool
  distExists : Bool
  bundleExists : Bool
  bundleBuildOk : Bool
  compileOk : String → Bool
  pkgFault : String → Bool
  ptyDirExists : String → Bool
  ptyFiles : String → List String
  addonFault : String → Bool
  bundleDirFiles : List String

/-- JavaScript `s.startsWith(t)`, on the character lists. -/
def strHasPrefix (s t : String) : Bool :=
  t.data.isPrefixOf s.data

/-- JavaScript `s.endsWith(t)`, on the character lists. -/
def strHasSuffix (s t : String) : Bool :=
  t.data.isSuffixOf s.data

/-- A file system: a partial map from paths to file contents. -/
abbrev FS := FPath → Option String

/-- Semantics of one event on a file system.  `rmSync(p, recursive)`
removes every file at or below `p`; `copyFileSync` duplicates the
source's current content; `mkdirSync` creates directories only and so
does not change the file map. -/
def applyEv (fs : FS) : Ev → FS
  | Ev.writeFile p c => fun q => if q = p then some c else fs q
  | Ev.copyFile s d => fun q => if q = d then fs s else fs q
  | Ev.rmTree p => fun q => if p.isPrefixOf q then none else fs q
  | _ => fs

/-- Run a whole trace over a file system, left to right. -/
def applyEvents (fs : FS) : List Ev → FS
  | [] => fs
  | e :: rest => applyEvents (applyEv fs e) rest

/-- The paths an event writes to (target of a write or of a copy). -/
def evWrites : Ev → List FPath
  | Ev.writeFile p _ => [p]
  | Ev.copyFile _ d => [d]
  | _ => []

/-- All paths a trace writes to. -/
def writtenPaths : List Ev → List FPath
  | [] => []
  | e :: rest => evWrites e ++ writtenPaths rest

/-- Whether an event is a recursive directory removal. -/
def isRmEv : Ev → Bool
  | Ev.rmTree _ => true
  | _ => false

/-- Whether a trace contains any recursive removal. -/
def hasRm (evs : List Ev) : Bool := evs.any isRmEv

/-- Whether some removal in the trace covers the path `q`. -/
def rmHits (q : FPath) (evs : List Ev) : Bool :=
  evs.any fun e =>
    match e with
    | Ev.rmTree p => p.isPrefixOf q
    | _ => false

/-- The directories a trace creates. -/
def mkdirPaths : List Ev → List FPath
  | [] => []
  | Ev.mkdir p :: rest => p :: mkdirPaths rest
  | _ :: rest => mkdirPaths rest

/-- Whether a trace contains a console warning. -/
def hasWarn (evs : List Ev) : Bool :=
  evs.any fun e =>
    match e with
    | Ev.warn _ => true
    | _ => false

/-- Whether a trace contains the "Unknown platform" error message. -/
def hasUnknownErr (evs : List Ev) : Bool :=
  evs.any fun e =>
    match e with
    | Ev.error m => strHasPrefix m "Unknown platform:"
    | _ => false

/-- The name of the entry directly below directory `d` on the path `p`,
when `p` lies strictly below `d`. -/
def childName (d p : FPath) : Option String :=
  if d.isPrefixOf p then p[d.length]? else none

/-- Render a path the way the scripts print it in command lines. -/
def joinPath (p : FPath) : String := String.intercalate "/" p

namespace SF

/-- `scripts/build-single-file.js`: the `targets` table (Bun compile
targets, keyed by platform key). -/
def targets (k : String) : Option String :=
  if k = "linux-x64" then some "bun-linux-x64"
  else if k = "linux-arm64" then some "bun-linux-arm64"
  else if k = "mac-x64" then some "bun-darwin-x64"
  else if k = "mac-arm64" then some "bun-darwin-arm64"
  else if k = "win-x64" then some "bun-windows-x64"
  else none

/-- `Object.keys(targets)`, in insertion order. -/
def targetsKeys : List String :=
  ["linux-x64", "linux-arm64", "mac-x64", "mac-arm64", "win-x64"]

/-- The `outputNames` table. -/
def outputNames (k : String) : Option String :=
  if k = "linux-x64" then some "gsharp"
  else if k = "linux-arm64" then some "gsharp"
  else if k = "mac-x64" then some "gsharp"
  else if k = "mac-arm64" then some "gsharp"
  else if k = "win-x64" then some "gsharp.exe"
  else none

/-- `distDir = join(rootDir, 'dist-single')`, relative to the repo
root. -/
def distDir : FPath := ["dist-single"]

/-- `bundleDir = join(rootDir, 'bundle')`. -/
def bundleDir : FPath := ["bundle"]

/-- `getCurrentPlatform()` as a function of `process.platform` and
`process.arch`. -/
def getCurrentPlatform (platform arch : String) : String :=
  if platform = "win32" then "win-x64"
  else if platform = "darwin" then
    (if arch = "arm64" then "mac-arm64" else "mac-x64")
  else if arch = "arm64" then "linux-arm64" else "linux-x64"

/-- `run(command, args)`: spawn the command; on a non-zero status a
JavaScript `Error` is thrown (no caller passes `allowFailure`). -/
def run (cmdline : String) (ok : Bool) : List Ev × Ctl Unit :=
  ([Ev.runCmd cmdline], if ok then Ctl.ok () else Ctl.threw)

/-- `ensureBundle()`: check `bundle/gemini.js`; if absent run
`npm run bundle`; return the bundle path (with no re-check). -/
def ensureBundle (env : Env) : List Ev × Ctl FPath :=
  let bundleFile := bundleDir ++ ["gemini.js"]
  if env.bundleExists then
    ([Ev.checkExists bundleFile], Ctl.ok bundleFile)
  else
    match run "npm run bundle" env.bundleBuildOk with
    | (e, Ctl.ok _) => (Ev.checkExists bundleFile :: e, Ctl.ok bundleFile)
    | (e, _) => (Ev.checkExists bundleFile :: e, Ctl.threw)

/-- The `ptyMap` table inside `copyNativeAddons`. -/
def ptyMap (k : String) : Option String :=
  if k = "win-x64" then some "@lydell/node-pty-win32-x64"
  else if k = "mac-x64" then some "@lydell/node-pty-darwin-x64"
  else if k = "mac-arm64" then some "@lydell/node-pty-darwin-arm64"
  else if k = "linux-x64" then some "@lydell/node-pty-linux-x64"
  else if k = "linux-arm64" then some "@lydell/node-pty-linux-arm64"
  else none

/-- `copyNativeAddons(platform, destDir)`: look up the pty package; if
its directory exists, copy every `.node` file into `destDir`; any
file-system error inside the `try` is caught and turned into a warning.
The function never throws and never exits. -/
def copyNativeAddons (env : Env) (platform : String) (destDir : FPath) :
    List Ev :=
  match ptyMap platform with
  | none => []
  | some pkg =>
    let ptyPath : FPath := ["node_modules", pkg]
    if env.ptyDirExists pkg then
      if env.addonFault pkg then
        [Ev.checkExists ptyPath, Ev.warn "  Warning: Could not copy native addons"]
      else
        Ev.checkExists ptyPath ::
          ((env.ptyFiles pkg).filter (fun f => strHasSuffix f ".node")).map
            (fun f => Ev.copyFile (ptyPath ++ [f]) (destDir ++ [f]))
    else [Ev.checkExists ptyPath]

/-- `buildForPlatform(platform, bundlePath)`: make the platform's output
directory, compile with Bun (throwing on failure), then copy native
addons; return the output path. -/
def buildForPlatform (env : Env) (platform : String) (bundlePath : FPath) :
    List Ev × Ctl FPath :=
  let target := (targets platform).getD ""
  let outputName := (outputNames platform).getD ""
  let platformDir := distDir ++ [platform]
  let outputPath := platformDir ++ [outputName]
  let cmdline := "bun build " ++ joinPath bundlePath ++
    " --compile --target " ++ target ++ " --outfile " ++
    joinPath outputPath ++ " --minify"
  match run cmdline (env.compileOk platform) with
  | (e, Ctl.ok _) =>
    (Ev.mkdir platformDir :: e ++ copyNativeAddons env platform platformDir,
     Ctl.ok outputPath)
  | (e, _) => (Ev.mkdir platformDir :: e, Ctl.threw)

/-- The `--all` loop of `main`: each platform's failure is caught,
reported, and the loop continues with the next platform. -/
def buildAllLoop (env : Env) (bundlePath : FPath) : List String → List Ev
  | [] => []
  | p :: rest =>
    (match buildForPlatform env p bundlePath with
     | (e, Ctl.threw) => e ++ [Ev.error ("Failed to build for " ++ p)]
     | (e, _) => e) ++ buildAllLoop env bundlePath rest

/-- `main()` together with the top-level `main().catch` handler: the
result is the trace and the process exit code (0 on normal completion,
1 on `process.exit(1)` or an uncaught exception). -/
def main (env : Env) (args : List String) : List Ev × Nat :=
  let buildAll := args.contains "--all"
  let specificPlatform := args.find? (fun a => !(strHasPrefix a "--"))
  let bunEvs := [Ev.runCmd "bun --version"]
  if !env.bunAvailable then
    (bunEvs ++ [Ev.error "Bun not found. Install with: curl -fsSL https://bun.sh/install | bash"], 1)
  else
    let cleanEvs :=
      (if env.distExists then [Ev.checkExists distDir, Ev.rmTree distDir]
       else [Ev.checkExists distDir]) ++ [Ev.mkdir distDir]
    match ensureBundle env with
    | (bev, Ctl.ok bundlePath) =>
      let pre := bunEvs ++ cleanEvs ++ bev
      if buildAll then
        (pre ++ buildAllLoop env bundlePath targetsKeys, 0)
      else
        match specificPlatform with
        | some sp =>
          if sp = "" then
            match buildForPlatform env
                (getCurrentPlatform env.hostPlatform env.hostArch) bundlePath with
            | (e, Ctl.threw) => (pre ++ e, 1)
            | (e, _) => (pre ++ e, 0)
          else if (targets sp).isSome then
            match buildForPlatform env sp bundlePath with
            | (e, Ctl.threw) => (pre ++ e, 1)
            | (e, _) => (pre ++ e, 0)
          else
            (pre ++ [Ev.error ("Unknown platform: " ++ sp),
              Ev.log ("Available: " ++ String.intercalate ", " targetsKeys)], 1)
        | none =>
          match buildForPlatform env
              (getCurrentPlatform env.hostPlatform env.hostArch) bundlePath with
          | (e, Ctl.threw) => (pre ++ e, 1)
          | (e, _) => (pre ++ e, 0)
    | (bev, _) => (bunEvs ++ cleanEvs ++ bev, 1)

end SF

namespace ST

/-- `scripts/build-standalone.js`: the `platforms` table; each entry's
only field is the launcher extension `ext`. -/
def platforms (k : String) : Option String :=
  if k = "linux-x64" then some ""
  else if k = "linux-arm64" then some ""
  else if k = "mac-x64" then some ""
  else if k = "mac-arm64" then some ""
  else if k = "win-x64" then some ".cmd"
  else none

/-- `Object.keys(platforms)`, in insertion order. -/
def platformsKeys : List String :=
  ["linux-x64", "linux-arm64", "mac-x64", "mac-arm64", "win-x64"]

/-- `distDir = join(rootDir, 'dist-standalone')`. -/
def distDir : FPath := ["dist-standalone"]

/-- `bundleDir = join(rootDir, 'bundle')`. -/
def bundleDir : FPath := ["bundle"]

/-- `run(command, args)`: spawn the command; on a non-zero status print
an error and `process.exit(1)` (no caller passes `allowFailure`). -/
def run (cmdline : String) (ok : Bool) : List Ev × Ctl Unit :=
  ([Ev.runCmd cmdline], if ok then Ctl.ok () else Ctl.exited 1)

/-- `ensureBundle()`: check `bundle/gemini.js`; if absent run
`npm run bundle`; return the bundle path (with no re-check). -/
def ensureBundle (env : Env) : List Ev × Ctl FPath :=
  let bundleFile := bundleDir ++ ["gemini.js"]
  if env.bundleExists then
    ([Ev.checkExists bundleFile], Ctl.ok bundleFile)
  else
    match run "npm run bundle" env.bundleBuildOk with
    | (e, Ctl.ok _) => (Ev.checkExists bundleFile :: e, Ctl.ok bundleFile)
    | (e, Ctl.exited n) => (Ev.checkExists bundleFile :: e, Ctl.exited n)
    | (e, Ctl.threw) => (Ev.checkExists bundleFile :: e, Ctl.threw)

/-- `getCurrentPlatform()` as a function of `process.platform` and
`process.arch` (identical to the single-file script's). -/
def getCurrentPlatform (platform arch : String) : String :=
  if platform = "win32" then "win-x64"
  else if platform = "darwin" then
    (if arch = "arm64" then "mac-arm64" else "mac-x64")
  else if arch = "arm64" then "linux-arm64" else "linux-x64"

/-- The Windows batch launcher content written by `createLauncher`. -/
def batContent : String :=
  "@echo off\nsetlocal\nset \"SCRIPT_DIR=%~dp0\"\nnode \"%SCRIPT_DIR%\\bundle\\gemini.js\" %*\n"

/-- The POSIX shell launcher content written by `createLauncher`. -/
def shContent : String :=
  "#!/bin/sh\nSCRIPT_DIR=\"$(cd \"$(dirname \"$0\")\" && pwd)\"\nexec node \"$SCRIPT_DIR/bundle/gemini.js\" \"$@\"\n"

/-- `createLauncher(platformDir, isWindows)`: write the two launcher
scripts (`gsharp`/`gemini-sharp`, with `.cmd` on Windows); both get the
same content, which depends only on `isWindows`. -/
def createLauncher (platformDir : FPath) (isWindows : Bool) : List Ev :=
  if isWindows then
    [Ev.writeFile (platformDir ++ ["gsharp.cmd"]) batContent,
     Ev.writeFile (platformDir ++ ["gemini-sharp.cmd"]) batContent]
  else
    [Ev.writeFile (platformDir ++ ["gsharp"]) shContent,
     Ev.writeFile (platformDir ++ ["gemini-sharp"]) shContent]

/-- The `ptyMap` table inside this script's `copyNativeAddons`. -/
def ptyMap (k : String) : Option String :=
  if k = "win-x64" then some "@lydell/node-pty-win32-x64"
  else if k = "mac-x64" then some "@lydell/node-pty-darwin-x64"
  else if k = "mac-arm64" then some "@lydell/node-pty-darwin-arm64"
  else if k = "linux-x64" then some "@lydell/node-pty-linux-x64"
  else if k = "linux-arm64" then some "@lydell/node-pty-linux-arm64"
  else none

/-- `copyNativeAddons(platform, destDir)` of the standalone script: same
shape as the single-file one; the caught-error warning names the
platform.  The function never throws and never exits. -/
def copyNativeAddons (env : Env) (platform : String) (destDir : FPath) :
    List Ev :=
  match ptyMap platform with
  | none => []
  | some pkg =>
    let ptyPath : FPath := ["node_modules", pkg]
    if env.ptyDirExists pkg then
      if env.addonFault pkg then
        [Ev.checkExists ptyPath,
         Ev.warn ("  Warning: Could not copy native addons for " ++ platform)]
      else
        Ev.checkExists ptyPath ::
          ((env.ptyFiles pkg).filter (fun f => strHasSuffix f ".node")).map
            (fun f => Ev.copyFile (ptyPath ++ [f]) (destDir ++ [f]))
    else [Ev.checkExists ptyPath]

/-- The README written into each package directory. -/
def readmeContent (isWindows : Bool) : String :=
  "# Gemini Sharp (gsharp)\n\nA privacy-focused, enhanced Gemini CLI.\n\n## Installation\n\n1. Extract this archive to a directory of your choice\n2. Add the directory to your PATH, or run directly:\n   " ++
  (if isWindows then ".\\gsharp.cmd" else "./gsharp") ++
  "\n\n## Requirements\n\n- Node.js 20+ must be installed and available as 'node' in PATH\n- Or download Node.js from: https://nodejs.org/\n\n## Usage\n\n  gsharp              # Start interactive mode\n  gsharp \"prompt\"     # Run with a prompt\n  gsharp --help       # Show help\n\n## More Info\n\nhttps://github.com/johnzfitch/gemini-xo\n"

/-- `buildPackage(platformKey)`: validate the key against the table
(`process.exit(1)` on a miss), make `<pkg>/bundle`, copy every bundle
file into it, copy native addons into the same `bundle` directory,
write the two launchers and the README; return the package directory.
A file-system fault while copying the bundle files (`env.pkgFault`) is
modelled as thrown before any copy lands. -/
def buildPackage (env : Env) (platformKey : String) : List Ev × Ctl FPath :=
  match platforms platformKey with
  | none => ([Ev.error ("Unknown platform: " ++ platformKey)], Ctl.exited 1)
  | some _ =>
    let isWindows := strHasPrefix platformKey "win"
    let platformDir := distDir ++ ["gsharp-" ++ platformKey]
    let bundleDestDir := platformDir ++ ["bundle"]
    if env.pkgFault platformKey then
      ([Ev.mkdir bundleDestDir], Ctl.threw)
    else
      (Ev.mkdir bundleDestDir ::
        env.bundleDirFiles.map
          (fun f => Ev.copyFile (bundleDir ++ [f]) (bundleDestDir ++ [f])) ++
        copyNativeAddons env platformKey bundleDestDir ++
        createLauncher platformDir isWindows ++
        [Ev.writeFile (platformDir ++ ["README.txt"]) (readmeContent isWindows)],
       Ctl.ok platformDir)

/-- The `--all` loop: no per-entry handler, so the first abnormal
outcome (a thrown exception or a `process.exit`) stops the loop and
propagates. -/
def buildAllLoop (env : Env) : List String → List Ev × Ctl Unit
  | [] => ([], Ctl.ok ())
  | p :: rest =>
    match buildPackage env p with
    | (e, Ctl.ok _) =>
      match buildAllLoop env rest with
      | (e2, c2) => (e ++ e2, c2)
    | (e, Ctl.exited n) => (e, Ctl.exited n)
    | (e, Ctl.threw) => (e, Ctl.threw)

/-- The top-level code of the script: ensure the bundle, make the output
root, then dispatch on `--all` / a specific key / the host platform.
An exception that escapes the top level makes Node exit with code 1. -/
def main (env : Env) (args : List String) : List Ev × Nat :=
  let specificPlatform := args.find? (fun a => !(strHasPrefix a "--"))
  let buildAll := args.contains "--all"
  match ensureBundle env with
  | (bev, Ctl.ok _) =>
    let pre := bev ++ [Ev.mkdir distDir]
    if buildAll then
      match buildAllLoop env platformsKeys with
      | (e, Ctl.ok _) => (pre ++ e, 0)
      | (e, Ctl.exited n) => (pre ++ e, n)
      | (e, Ctl.threw) => (pre ++ e, 1)
    else
      match specificPlatform with
      | some sp =>
        if sp = "" then
          match buildPackage env (getCurrentPlatform env.hostPlatform env.hostArch) with
          | (e, Ctl.ok _) => (pre ++ e, 0)
          | (e, Ctl.exited n) => (pre ++ e, n)
          | (e, Ctl.threw) => (pre ++ e, 1)
        else if (platforms sp).isSome then
          match buildPackage env sp with
          | (e, Ctl.ok _) => (pre ++ e, 0)
          | (e, Ctl.exited n) => (pre ++ e, n)
          | (e, Ctl.threw) => (pre ++ e, 1)
        else
          (pre ++ [Ev.error ("Unknown platform: " ++ sp),
            Ev.log ("Available: " ++ String.intercalate ", " platformsKeys)], 1)
      | none =>
        match buildPackage env (getCurrentPlatform env.hostPlatform env.hostArch) with
        | (e, Ctl.ok _) => (pre ++ e, 0)
        | (e, Ctl.exited n) => (pre ++ e, n)
        | (e, Ctl.threw) => (pre ++ e, 1)
  | (bev, Ctl.exited n) => (bev, n)
  | (bev, Ctl.threw) => (bev, 1)

end ST

/-- The contents a trace writes, in order. -/
def writtenContents : List Ev → List String
  | [] => []
  | Ev.writeFile _ c :: rest => c :: writtenContents rest
  | _ :: rest => writtenContents rest

/-- The `bundle` directory of platform `k`'s standalone package. -/
def ST.pkgBundleDir (k : String) : FPath :=
  ST.distDir ++ ["gsharp-" ++ k, "bundle"]

/-- A fully healthy environment for concrete runs: Bun present, output
root pre-existing, bundle built, every external step succeeding, no
native-addon directories. -/
def envAll : Env :=
  { hostPlatform := "linux", hostArch := "x64", bunAvailable := true,
    distExists := true, bundleExists := true, bundleBuildOk := true,
    compileOk := fun _ => true, pkgFault := fun _ => false,
    ptyDirExists := fun _ => false, ptyFiles := fun _ => [],
    addonFault := fun _ => false, bundleDirFiles := ["gemini.js"] }

/-- Like `envAll` but the very first table entry (`linux-x64`) fails:
its Bun compile exits non-zero and its package build throws. -/
def envFaultFirst : Env :=
  { envAll with
    compileOk := (fun k => !(k == "linux-x64")),
    pkgFault := (fun k => k == "linux-x64") }

/-- Like `envAll` but the bundle file is absent and `npm run bundle`
succeeds. -/
def envNoBundle : Env :=
  { envAll with bundleExists := false }

/-- Like `envAll` but the bundle file is absent and `npm run bundle`
fails. -/
def envNoBundleBad : Env :=
  { envAll with bundleExists := false, bundleBuildOk := false }

/-- A file system holding one stale file inside `dist-single` and one
unrelated file. -/
def fs0 : FS := fun q =>
  if q = ["dist-single", "stale.txt"] then some "stale"
  else if q = ["keepme"] then some "kept" else none

/-! ### Generic lemmas about traces and the file-system semantics -/

theorem applyEvents_append (fs : FS) (a b : List Ev) :
    applyEvents fs (a ++ b) = applyEvents (applyEvents fs a) b := by
  induction a generalizing fs with
  | nil => rfl
  | cons e r ih => simp [applyEvents, ih]

theorem writtenPaths_append (a b : List Ev) :
    writtenPaths (a ++ b) = writtenPaths a ++ writtenPaths b := by
  induction a with
  | nil => rfl
  | cons e r ih => simp [writtenPaths, ih]

theorem mkdirPaths_append (a b : List Ev) :
    mkdirPaths (a ++ b) = mkdirPaths a ++ mkdirPaths b := by
  induction a with
  | nil => rfl
  | cons e r ih => cases e <;> simp [mkdirPaths, ih]

theorem hasRm_append (a b : List Ev) :
    hasRm (a ++ b) = (hasRm a || hasRm b) := by
  simp [hasRm, List.any_append]

theorem rmHits_eq_false_of_hasRm (q : FPath) (evs : List Ev)
    (h : hasRm evs = false) : rmHits q evs = false := by
  unfold hasRm at h
  unfold rmHits
  simp only [List.any_eq_false] at h ⊢
  intro e he
  have := h e he
  cases e <;> simp_all [isRmEv]

theorem applyEvents_frame (fs : FS) (evs : List Ev) (q : FPath)
    (hw : q ∉ writtenPaths evs) (hr : rmHits q evs = false) :
    applyEvents fs evs q = fs q := by
  induction evs generalizing fs with
  | nil => rfl
  | cons e r ih =>
    simp only [writtenPaths, List.mem_append, not_or] at hw
    simp only [rmHits, List.any_cons, Bool.or_eq_false_iff] at hr
    rw [applyEvents, ih _ hw.2 (by simpa [rmHits] using hr.2)]
    rcases hw with ⟨hw1, -⟩
    cases e <;> simp_all [applyEv, evWrites]

theorem mkdir_mem_iff (p : FPath) (evs : List Ev) :
    Ev.mkdir p ∈ evs ↔ p ∈ mkdirPaths evs := by
  induction evs with
  | nil => simp [mkdirPaths]
  | cons e r ih => cases e <;> simp [mkdirPaths, ih]

theorem writtenPaths_map_copy {α : Type} (l : List α) (s d : α → FPath) :
    writtenPaths (l.map fun f => Ev.copyFile (s f) (d f)) = l.map d := by
  induction l with
  | nil => rfl
  | cons x r ih => simp [writtenPaths, evWrites, ih]

theorem mkdirPaths_map_copy {α : Type} (l : List α) (s d : α → FPath) :
    mkdirPaths (l.map fun f => Ev.copyFile (s f) (d f)) = [] := by
  induction l with
  | nil => rfl
  | cons x r ih => simp [mkdirPaths, ih]

theorem hasRm_map_copy {α : Type} (l : List α) (s d : α → FPath) :
    hasRm (l.map fun f => Ev.copyFile (s f) (d f)) = false := by
  simp [hasRm, List.any_map, Function.comp, isRmEv]

theorem no_error_map_copy {α : Type} (l : List α) (s d : α → FPath)
    (m : String) : Ev.error m ∉ (l.map fun f => Ev.copyFile (s f) (d f)) := by
  simp

theorem hasWarn_map_copy {α : Type} (l : List α) (s d : α → FPath) :
    hasWarn (l.map fun f => Ev.copyFile (s f) (d f)) = false := by
  simp [hasWarn, List.any_map, Function.comp]

theorem hasRm_nil : hasRm [] = false := rfl

theorem hasRm_cons (e : Ev) (evs : List Ev) :
    hasRm (e :: evs) = (isRmEv e || hasRm evs) := by
  simp [hasRm]

theorem unknown_ne_failed (s p : String) :
    ("Unknown platform: " ++ s) ≠ ("Failed to build for " ++ p) := by
  intro h
  have h2 : ("Unknown platform: " ++ s).data = ("Failed to build for " ++ p).data :=
    congrArg String.data h
  rw [String.data_append, String.data_append] at h2
  have hU : "Unknown platform: ".data = 'U' :: "nknown platform: ".data := rfl
  have hF : "Failed to build for ".data = 'F' :: "ailed to build for ".data := rfl
  rw [hU, hF, List.cons_append, List.cons_append] at h2
  injection h2 with h3 h4
  exact absurd h3 (by decide)

theorem unknown_ne_bun (s : String) :
    ("Unknown platform: " ++ s) ≠
      "Bun not found. Install with: curl -fsSL https://bun.sh/install | bash" := by
  intro h
  have h2 := congrArg String.data h
  rw [String.data_append] at h2
  have hU : "Unknown platform: ".data = 'U' :: "nknown platform: ".data := rfl
  have hB : ("Bun not found. Install with: curl -fsSL https://bun.sh/install | bash").data =
      'B' :: ("un not found. Install with: curl -fsSL https://bun.sh/install | bash").data := rfl
  rw [hU, hB, List.cons_append] at h2
  injection h2 with h3 h4
  exact absurd h3 (by decide)

/-! ### Lemmas about the single-file script's components -/

theorem sf_copyNativeAddons_hasRm (env : Env) (pf : String) (d : FPath) :
    hasRm (SF.copyNativeAddons env pf d) = false := by
  unfold SF.copyNativeAddons
  cases SF.ptyMap pf with
  | none => rfl
  | some pkg =>
    by_cases h1 : env.ptyDirExists pkg
    · by_cases h2 : env.addonFault pkg
      · simp [h1, h2, hasRm, isRmEv]
      · simp [h1, h2, hasRm_cons, isRmEv, hasRm_map_copy]
    · simp [h1, hasRm, isRmEv]

theorem sf_copyNativeAddons_no_error (env : Env) (pf : String) (d : FPath)
    (m : String) : Ev.error m ∉ SF.copyNativeAddons env pf d := by
  unfold SF.copyNativeAddons
  cases SF.ptyMap pf with
  | none => simp
  | some pkg =>
    by_cases h1 : env.ptyDirExists pkg
    · by_cases h2 : env.addonFault pkg
      · simp [h1, h2]
      · simp [h1, h2]
    · simp [h1]

theorem sf_copyNativeAddons_mkdirPaths (env : Env) (pf : String) (d : FPath) :
    mkdirPaths (SF.copyNativeAddons env pf d) = [] := by
  unfold SF.copyNativeAddons
  cases SF.ptyMap pf with
  | none => rfl
  | some pkg =>
    by_cases h1 : env.ptyDirExists pkg
    · by_cases h2 : env.addonFault pkg
      · simp [h1, h2, mkdirPaths]
      · simp [h1, h2, mkdirPaths, mkdirPaths_map_copy]
    · simp [h1, mkdirPaths]

theorem sf_ensureBundle_ok (env : Env)
    (h : (env.bundleExists || env.bundleBuildOk) = true) :
    ∃ bev, SF.ensureBundle env = (bev, Ctl.ok (SF.bundleDir ++ ["gemini.js"])) ∧
      hasRm bev = false ∧ mkdirPaths bev = [] ∧ writtenPaths bev = [] ∧
      ∀ m, Ev.error m ∉ bev := by
  by_cases h1 : env.bundleExists
  · refine ⟨[Ev.checkExists (SF.bundleDir ++ ["gemini.js"])], ?_, ?_, ?_, ?_, ?_⟩ <;>
      simp [SF.ensureBundle, h1, hasRm, isRmEv, mkdirPaths, writtenPaths, evWrites]
  · have h2 : env.bundleBuildOk = true := by simpa [h1] using h
    refine ⟨[Ev.checkExists (SF.bundleDir ++ ["gemini.js"]),
      Ev.runCmd "npm run bundle"], ?_, ?_, ?_, ?_, ?_⟩ <;>
      simp [SF.ensureBundle, SF.run, h1, h2, hasRm, isRmEv, mkdirPaths,
        writtenPaths, evWrites]

theorem sf_ensureBundle_fail (env : Env) (h1 : env.bundleExists = false)
    (h2 : env.bundleBuildOk = false) :
    SF.ensureBundle env =
      ([Ev.checkExists (SF.bundleDir ++ ["gemini.js"]),
        Ev.runCmd "npm run bundle"], Ctl.threw) := by
  simp [SF.ensureBundle, SF.run, h1, h2]

theorem sf_ensureBundle_hasRm (env : Env) :
    hasRm (SF.ensureBundle env).1 = false := by
  by_cases h1 : env.bundleExists
  · simp [SF.ensureBundle, SF.run, h1, hasRm, isRmEv]
  · by_cases h2 : env.bundleBuildOk <;>
      simp [SF.ensureBundle, SF.run, h1, h2, hasRm, isRmEv]

theorem sf_buildForPlatform_mkdir (env : Env) (p : String) (b : FPath) :
    Ev.mkdir (SF.distDir ++ [p]) ∈ (SF.buildForPlatform env p b).1 := by
  unfold SF.buildForPlatform SF.run
  by_cases h : env.compileOk p <;> simp [h]

theorem sf_buildForPlatform_hasRm (env : Env) (p : String) (b : FPath) :
    hasRm (SF.buildForPlatform env p b).1 = false := by
  unfold SF.buildForPlatform SF.run
  by_cases h : env.compileOk p <;>
    simp [h, hasRm_cons, hasRm_append, hasRm_nil, isRmEv,
      sf_copyNativeAddons_hasRm]

theorem sf_buildForPlatform_no_error (env : Env) (p : String) (b : FPath)
    (m : String) : Ev.error m ∉ (SF.buildForPlatform env p b).1 := by
  unfold SF.buildForPlatform SF.run
  by_cases h : env.compileOk p <;>
    simp [h, sf_copyNativeAddons_no_error]

theorem sf_buildForPlatform_fail (env : Env) (p : String) (b : FPath)
    (h : env.compileOk p = false) :
    (SF.buildForPlatform env p b).2 = Ctl.threw := by
  simp [SF.buildForPlatform, SF.run, h]

theorem sf_buildAllLoop_mkdir (env : Env) (b : FPath) {p : String}
    {ks : List String} (h : p ∈ ks) :
    Ev.mkdir (SF.distDir ++ [p]) ∈ SF.buildAllLoop env b ks := by
  induction ks with
  | nil => cases h
  | cons q r ih =>
    unfold SF.buildAllLoop
    rcases List.mem_cons.mp h with h1 | h2
    · subst h1
      rcases hbp : SF.buildForPlatform env p b with ⟨e, c⟩
      have hm := sf_buildForPlatform_mkdir env p b
      rw [hbp] at hm
      cases c <;> simp_all
    · have := ih h2
      rcases hbp : SF.buildForPlatform env q b with ⟨e, c⟩
      cases c <;> simp_all

theorem sf_buildAllLoop_hasRm (env : Env) (b : FPath) (ks : List String) :
    hasRm (SF.buildAllLoop env b ks) = false := by
  induction ks with
  | nil => rfl
  | cons q r ih =>
    unfold SF.buildAllLoop
    rcases hbp : SF.buildForPlatform env q b with ⟨e, c⟩
    have he := sf_buildForPlatform_hasRm env q b
    rw [hbp] at he
    cases c <;>
      simp [hasRm_append, hasRm_cons, hasRm_nil, isRmEv, he, ih]

theorem sf_buildAllLoop_failed_error (env : Env) (b : FPath) {p : String}
    {ks : List String} (h : p ∈ ks) (hc : env.compileOk p = false) :
    Ev.error ("Failed to build for " ++ p) ∈ SF.buildAllLoop env b ks := by
  induction ks with
  | nil => cases h
  | cons q r ih =>
    unfold SF.buildAllLoop
    rcases List.mem_cons.mp h with h1 | h2
    · subst h1
      rcases hbp : SF.buildForPlatform env p b with ⟨e, c⟩
      have hf := sf_buildForPlatform_fail env p b hc
      rw [hbp] at hf
      simp at hf
      subst hf
      simp
    · have := ih h2
      rcases hbp : SF.buildForPlatform env q b with ⟨e, c⟩
      cases c <;> simp_all

theorem sf_buildAllLoop_no_unknown (env : Env) (b : FPath) (ks : List String)
    (s : String) :
    Ev.error ("Unknown platform: " ++ s) ∉ SF.buildAllLoop env b ks := by
  induction ks with
  | nil => simp [SF.buildAllLoop]
  | cons q r ih =>
    unfold SF.buildAllLoop
    rcases hbp : SF.buildForPlatform env q b with ⟨e, c⟩
    have hne := sf_buildForPlatform_no_error env q b ("Unknown platform: " ++ s)
    rw [hbp] at hne
    cases c <;> simp_all [unknown_ne_failed]

theorem sf_ensureBundle_no_error (env : Env) (m : String) :
    Ev.error m ∉ (SF.ensureBundle env).1 := by
  by_cases h1 : env.bundleExists
  · simp [SF.ensureBundle, SF.run, h1]
  · by_cases h2 : env.bundleBuildOk <;>
      simp [SF.ensureBundle, SF.run, h1, h2]

theorem sf_main_all (env : Env) (args : List String)
    (hall : args.contains "--all" = true) (hbun : env.bunAvailable = true)
    (hbok : (env.bundleExists || env.bundleBuildOk) = true) :
    (SF.main env args).2 = 0 ∧
    (∀ p ∈ SF.targetsKeys, Ev.mkdir (SF.distDir ++ [p]) ∈ (SF.main env args).1) ∧
    (∀ p ∈ SF.targetsKeys, env.compileOk p = false →
      Ev.error ("Failed to build for " ++ p) ∈ (SF.main env args).1) := by
  obtain ⟨bev, hEB, hrm, hmk, hwr, herr⟩ := sf_ensureBundle_ok env hbok
  have hall2 : "--all" ∈ args := by simpa using hall
  refine ⟨?_, ?_, ?_⟩
  · simp [SF.main, hEB, hall2, hbun]
  · intro p hp
    have hm := sf_buildAllLoop_mkdir env (SF.bundleDir ++ ["gemini.js"]) hp
    simp [SF.main, hEB, hall2, hbun, hm]
  · intro p hp hc
    have hm := sf_buildAllLoop_failed_error env (SF.bundleDir ++ ["gemini.js"]) hp hc
    simp [SF.main, hEB, hall2, hbun, hm]

theorem not_rmTree_mem_of_hasRm (p : FPath) (evs : List Ev)
    (h : hasRm evs = false) : Ev.rmTree p ∉ evs := by
  intro hmem
  unfold hasRm at h
  rw [List.any_eq_false] at h
  exact absurd (h _ hmem) (by simp [isRmEv])

theorem sf_main_fatal_bundle (env : Env) (args : List String)
    (h1 : env.bundleExists = false) (h2 : env.bundleBuildOk = false)
    (hbun : env.bunAvailable = true) :
    (SF.main env args).2 = 1 ∧
    ∀ p, Ev.mkdir (SF.distDir ++ [p]) ∉ (SF.main env args).1 := by
  have hEB := sf_ensureBundle_fail env h1 h2
  constructor
  · simp [SF.main, hEB, hbun]
  · intro p
    by_cases hd : env.distExists <;>
      simp [SF.main, hEB, hbun, hd, SF.distDir]

theorem sf_main_unknown (env : Env) (args : List String) (sp : String)
    (hall : args.contains "--all" = false)
    (hsp : args.find? (fun a => !(strHasPrefix a "--")) = some sp)
    (hne : sp ≠ "") (hunk : SF.targets sp = none)
    (hbun : env.bunAvailable = true)
    (hbok : (env.bundleExists || env.bundleBuildOk) = true) :
    (SF.main env args).2 = 1 ∧
    Ev.error ("Unknown platform: " ++ sp) ∈ (SF.main env args).1 ∧
    Ev.log ("Available: " ++ String.intercalate ", " SF.targetsKeys) ∈
      (SF.main env args).1 ∧
    writtenPaths (SF.main env args).1 = [] ∧
    mkdirPaths (SF.main env args).1 = [SF.distDir] ∧
    ∀ p, Ev.rmTree p ∈ (SF.main env args).1 → p = SF.distDir := by
  obtain ⟨bev, hEB, hrm, hmk, hwr, herr⟩ := sf_ensureBundle_ok env hbok
  have hall2 : "--all" ∉ args := by simpa using hall
  refine ⟨?_, ?_, ?_, ?_, ?_, ?_⟩
  · by_cases hd : env.distExists <;>
      simp [SF.main, hEB, hall2, hsp, hne, hunk, hbun, hd]
  · by_cases hd : env.distExists <;>
      simp [SF.main, hEB, hall2, hsp, hne, hunk, hbun, hd]
  · by_cases hd : env.distExists <;>
      simp [SF.main, hEB, hall2, hsp, hne, hunk, hbun, hd]
  · by_cases hd : env.distExists <;>
      simp [SF.main, hEB, hall2, hsp, hne, hunk, hbun, hd,
        writtenPaths_append, writtenPaths, evWrites, hwr]
  · by_cases hd : env.distExists <;>
      simp [SF.main, hEB, hall2, hsp, hne, hunk, hbun, hd,
        mkdirPaths_append, mkdirPaths, hmk]
  · intro p hp
    by_cases hd : env.distExists <;>
      simp [SF.main, hEB, hall2, hsp, hne, hunk, hbun, hd] at hp
    · rcases hp with hp | hp
      · exact hp
      · exact absurd hp (not_rmTree_mem_of_hasRm p bev hrm)
    · exact absurd hp (not_rmTree_mem_of_hasRm p bev hrm)

theorem sf_main_clean (env : Env) (args : List String)
    (hbun : env.bunAvailable = true) (hdist : env.distExists = true) :
    ∃ rest, (SF.main env args).1 =
      Ev.runCmd "bun --version" :: Ev.checkExists SF.distDir ::
        Ev.rmTree SF.distDir :: Ev.mkdir SF.distDir :: rest ∧
      hasRm rest = false := by
  rcases hEB : SF.ensureBundle env with ⟨bev, c⟩
  have hrm : hasRm bev = false := by
    have := sf_ensureBundle_hasRm env
    rw [hEB] at this
    exact this
  cases c with
  | ok bp =>
    by_cases hall : "--all" ∈ args
    · refine ⟨bev ++ SF.buildAllLoop env bp SF.targetsKeys, ?_, ?_⟩
      · simp [SF.main, hEB, hall, hbun, hdist]
      · simp [hasRm_append, hrm, sf_buildAllLoop_hasRm]
    · rcases hsp : args.find? (fun a => !(strHasPrefix a "--")) with _ | sp
      · rcases hbp : SF.buildForPlatform env
            (SF.getCurrentPlatform env.hostPlatform env.hostArch) bp with ⟨e, c2⟩
        have he : hasRm e = false := by
          have := sf_buildForPlatform_hasRm env
            (SF.getCurrentPlatform env.hostPlatform env.hostArch) bp
          rw [hbp] at this
          exact this
        refine ⟨bev ++ e, ?_, by simp [hasRm_append, hrm, he]⟩
        cases c2 <;> simp [SF.main, hEB, hall, hsp, hbun, hdist, hbp]
      · by_cases hemp : sp = ""
        · rcases hbp : SF.buildForPlatform env
              (SF.getCurrentPlatform env.hostPlatform env.hostArch) bp with ⟨e, c2⟩
          have he : hasRm e = false := by
            have := sf_buildForPlatform_hasRm env
              (SF.getCurrentPlatform env.hostPlatform env.hostArch) bp
            rw [hbp] at this
            exact this
          refine ⟨bev ++ e, ?_, by simp [hasRm_append, hrm, he]⟩
          cases c2 <;> simp [SF.main, hEB, hall, hsp, hemp, hbun, hdist, hbp]
        · by_cases htg : (SF.targets sp).isSome
          · rcases hbp : SF.buildForPlatform env sp bp with ⟨e, c2⟩
            have he : hasRm e = false := by
              have := sf_buildForPlatform_hasRm env sp bp
              rw [hbp] at this
              exact this
            refine ⟨bev ++ e, ?_, by simp [hasRm_append, hrm, he]⟩
            cases c2 <;> simp [SF.main, hEB, hall, hsp, hemp, htg, hbun, hdist, hbp]
          · refine ⟨bev ++ [Ev.error ("Unknown platform: " ++ sp),
              Ev.log ("Available: " ++ String.intercalate ", " SF.targetsKeys)],
              ?_, ?_⟩
            · simp [SF.main, hEB, hall, hsp, hemp, htg, hbun, hdist]
            · simp [hasRm_append, hrm, hasRm_cons, hasRm_nil, isRmEv]
  | exited n =>
    exact ⟨bev, by simp [SF.main, hEB, hbun, hdist], hrm⟩
  | threw =>
    exact ⟨bev, by simp [SF.main, hEB, hbun, hdist], hrm⟩

theorem sf_main_no_unknown (env : Env) (args : List String) (s : String)
    (hall : args.contains "--all" = true) :
    Ev.error ("Unknown platform: " ++ s) ∉ (SF.main env args).1 := by
  have hall2 : "--all" ∈ args := by simpa using hall
  by_cases hbun : env.bunAvailable
  · rcases hEB : SF.ensureBundle env with ⟨bev, c⟩
    have hbe : Ev.error ("Unknown platform: " ++ s) ∉ bev := by
      have := sf_ensureBundle_no_error env ("Unknown platform: " ++ s)
      rw [hEB] at this
      exact this
    cases c with
    | ok bp =>
      have hloop := sf_buildAllLoop_no_unknown env bp SF.targetsKeys s
      by_cases hd : env.distExists <;>
        simp [SF.main, hEB, hall2, hbun, hd, hbe, hloop]
    | exited n =>
      by_cases hd : env.distExists <;>
        simp [SF.main, hEB, hall2, hbun, hd, hbe]
    | threw =>
      by_cases hd : env.distExists <;>
        simp [SF.main, hEB, hall2, hbun, hd, hbe]
  · simp only [Bool.not_eq_true] at hbun
    simp [SF.main, hbun, unknown_ne_bun]

/-! ### Lemmas about the standalone script's components -/

theorem st_platforms_isSome_of_mem {k : String} (h : k ∈ ST.platformsKeys) :
    (ST.platforms k).isSome := by
  fin_cases h <;> decide

theorem st_platformsKeys_nodup : ST.platformsKeys.Nodup := by decide

theorem st_pkgBundleDir_inj {a b : String}
    (h : ST.pkgBundleDir a = ST.pkgBundleDir b) : a = b := by
  unfold ST.pkgBundleDir ST.distDir at h
  simp only [List.cons_append, List.nil_append, List.cons.injEq,
    and_true] at h
  have h2 := congrArg String.data h.2
  rw [String.data_append, String.data_append] at h2
  exact String.ext (List.append_cancel_left h2)

theorem st_copyNativeAddons_hasRm (env : Env) (pf : String) (d : FPath) :
    hasRm (ST.copyNativeAddons env pf d) = false := by
  unfold ST.copyNativeAddons
  cases ST.ptyMap pf with
  | none => rfl
  | some pkg =>
    by_cases h1 : env.ptyDirExists pkg
    · by_cases h2 : env.addonFault pkg
      · simp [h1, h2, hasRm, isRmEv]
      · simp [h1, h2, hasRm_cons, isRmEv, hasRm_map_copy]
    · simp [h1, hasRm, isRmEv]

theorem st_copyNativeAddons_no_error (env : Env) (pf : String) (d : FPath)
    (m : String) : Ev.error m ∉ ST.copyNativeAddons env pf d := by
  unfold ST.copyNativeAddons
  cases ST.ptyMap pf with
  | none => simp
  | some pkg =>
    by_cases h1 : env.ptyDirExists pkg
    · by_cases h2 : env.addonFault pkg
      · simp [h1, h2]
      · simp [h1, h2]
    · simp [h1]

theorem st_copyNativeAddons_mkdirPaths (env : Env) (pf : String) (d : FPath) :
    mkdirPaths (ST.copyNativeAddons env pf d) = [] := by
  unfold ST.copyNativeAddons
  cases ST.ptyMap pf with
  | none => rfl
  | some pkg =>
    by_cases h1 : env.ptyDirExists pkg
    · by_cases h2 : env.addonFault pkg
      · simp [h1, h2, mkdirPaths]
      · simp [h1, h2, mkdirPaths, mkdirPaths_map_copy]
    · simp [h1, mkdirPaths]

theorem st_copyNativeAddons_written (env : Env) (pf : String) (d : FPath) :
    ∀ q ∈ writtenPaths (ST.copyNativeAddons env pf d), ∃ f, q = d ++ [f] := by
  unfold ST.copyNativeAddons
  cases ST.ptyMap pf with
  | none => simp [writtenPaths]
  | some pkg =>
    by_cases h1 : env.ptyDirExists pkg
    · by_cases h2 : env.addonFault pkg
      · simp [h1, h2, writtenPaths, evWrites]
      · simp only [h1, h2, if_true, if_false, Bool.false_eq_true,
          writtenPaths, evWrites, writtenPaths_map_copy, List.nil_append]
        intro q hq
        rcases List.mem_map.mp hq with ⟨f, -, hf⟩
        exact ⟨f, hf.symm⟩
    · simp [h1, writtenPaths, evWrites]

theorem st_copyNativeAddons_copy_dest (env : Env) (pf : String) (d : FPath)
    (s q : FPath) (h : Ev.copyFile s q ∈ ST.copyNativeAddons env pf d) :
    ∃ f, q = d ++ [f] := by
  unfold ST.copyNativeAddons at h
  cases hm : ST.ptyMap pf with
  | none => rw [hm] at h; simp at h
  | some pkg =>
    rw [hm] at h
    by_cases h1 : env.ptyDirExists pkg
    · by_cases h2 : env.addonFault pkg
      · simp [h1, h2] at h
      · simp only [h1, h2, if_true, if_false, Bool.false_eq_true,
          List.mem_cons] at h
        rcases h with h | h
        · cases h
        · rcases List.mem_map.mp h with ⟨f, -, hf⟩
          rcases Ev.copyFile.inj hf.symm with ⟨-, hq⟩
          exact ⟨f, hq⟩
    · simp [h1] at h

theorem st_ensureBundle_ok (env : Env)
    (h : (env.bundleExists || env.bundleBuildOk) = true) :
    ∃ bev, ST.ensureBundle env = (bev, Ctl.ok (ST.bundleDir ++ ["gemini.js"])) ∧
      hasRm bev = false ∧ mkdirPaths bev = [] ∧ writtenPaths bev = [] ∧
      ∀ m, Ev.error m ∉ bev := by
  by_cases h1 : env.bundleExists
  · refine ⟨[Ev.checkExists (ST.bundleDir ++ ["gemini.js"])], ?_, ?_, ?_, ?_, ?_⟩ <;>
      simp [ST.ensureBundle, h1, hasRm, isRmEv, mkdirPaths, writtenPaths, evWrites]
  · have h2 : env.bundleBuildOk = true := by simpa [h1] using h
    refine ⟨[Ev.checkExists (ST.bundleDir ++ ["gemini.js"]),
      Ev.runCmd "npm run bundle"], ?_, ?_, ?_, ?_, ?_⟩ <;>
      simp [ST.ensureBundle, ST.run, h1, h2, hasRm, isRmEv, mkdirPaths,
        writtenPaths, evWrites]

theorem st_ensureBundle_fail (env : Env) (h1 : env.bundleExists = false)
    (h2 : env.bundleBuildOk = false) :
    ST.ensureBundle env =
      ([Ev.checkExists (ST.bundleDir ++ ["gemini.js"]),
        Ev.runCmd "npm run bundle"], Ctl.exited 1) := by
  simp [ST.ensureBundle, ST.run, h1, h2]

theorem st_ensureBundle_hasRm (env : Env) :
    hasRm (ST.ensureBundle env).1 = false := by
  by_cases h1 : env.bundleExists
  · simp [ST.ensureBundle, ST.run, h1, hasRm, isRmEv]
  · by_cases h2 : env.bundleBuildOk <;>
      simp [ST.ensureBundle, ST.run, h1, h2, hasRm, isRmEv]

theorem st_ensureBundle_no_error (env : Env) (m : String) :
    Ev.error m ∉ (ST.ensureBundle env).1 := by
  by_cases h1 : env.bundleExists
  · simp [ST.ensureBundle, ST.run, h1]
  · by_cases h2 : env.bundleBuildOk <;>
      simp [ST.ensureBundle, ST.run, h1, h2]

theorem st_ensureBundle_mkdirPaths (env : Env) :
    mkdirPaths (ST.ensureBundle env).1 = [] := by
  by_cases h1 : env.bundleExists
  · simp [ST.ensureBundle, ST.run, h1, mkdirPaths]
  · by_cases h2 : env.bundleBuildOk <;>
      simp [ST.ensureBundle, ST.run, h1, h2, mkdirPaths]

theorem st_createLauncher_hasRm (d : FPath) (w : Bool) :
    hasRm (ST.createLauncher d w) = false := by
  cases w <;> simp [ST.createLauncher, hasRm, isRmEv]

theorem st_createLauncher_mkdirPaths (d : FPath) (w : Bool) :
    mkdirPaths (ST.createLauncher d w) = [] := by
  cases w <;> simp [ST.createLauncher, mkdirPaths]

theorem st_buildPackage_fault (env : Env) {k : String}
    (hsome : (ST.platforms k).isSome) (hf : env.pkgFault k = true) :
    ST.buildPackage env k = ([Ev.mkdir (ST.pkgBundleDir k)], Ctl.threw) := by
  rcases Option.isSome_iff_exists.mp hsome with ⟨cfg, hcfg⟩
  simp [ST.buildPackage, hcfg, hf, ST.pkgBundleDir]

theorem st_buildPackage_snd_ok (env : Env) {k : String}
    (hsome : (ST.platforms k).isSome) (hf : env.pkgFault k = false) :
    (ST.buildPackage env k).2 = Ctl.ok (ST.distDir ++ ["gsharp-" ++ k]) := by
  rcases Option.isSome_iff_exists.mp hsome with ⟨cfg, hcfg⟩
  simp [ST.buildPackage, hcfg, hf]

theorem st_buildPackage_mkdirPaths (env : Env) {k : String}
    (hsome : (ST.platforms k).isSome) :
    mkdirPaths (ST.buildPackage env k).1 = [ST.pkgBundleDir k] := by
  rcases Option.isSome_iff_exists.mp hsome with ⟨cfg, hcfg⟩
  by_cases hf : env.pkgFault k
  · simp [ST.buildPackage, hcfg, hf, mkdirPaths, ST.pkgBundleDir]
  · simp [ST.buildPackage, hcfg, hf, mkdirPaths, mkdirPaths_append,
      mkdirPaths_map_copy, st_copyNativeAddons_mkdirPaths,
      st_createLauncher_mkdirPaths, ST.pkgBundleDir]

theorem st_buildPackage_hasRm (env : Env) (k : String) :
    hasRm (ST.buildPackage env k).1 = false := by
  cases hcfg : ST.platforms k with
  | none => simp [ST.buildPackage, hcfg, hasRm, isRmEv]
  | some cfg =>
    by_cases hf : env.pkgFault k
    · simp [ST.buildPackage, hcfg, hf, hasRm, isRmEv]
    · simp [ST.buildPackage, hcfg, hf, hasRm_cons, hasRm_append, hasRm_nil,
        isRmEv, hasRm_map_copy, st_copyNativeAddons_hasRm,
        st_createLauncher_hasRm]

theorem st_buildPackage_no_error (env : Env) {k : String}
    (hsome : (ST.platforms k).isSome) (m : String) :
    Ev.error m ∉ (ST.buildPackage env k).1 := by
  rcases Option.isSome_iff_exists.mp hsome with ⟨cfg, hcfg⟩
  by_cases hf : env.pkgFault k
  · simp [ST.buildPackage, hcfg, hf]
  · cases hw : strHasPrefix k "win" <;>
      simp [ST.buildPackage, ST.createLauncher, hcfg, hf, hw,
        st_copyNativeAddons_no_error]

theorem st_buildAllLoop_ok (env : Env) (ks : List String)
    (hok : ∀ k ∈ ks, env.pkgFault k = false)
    (hsome : ∀ k ∈ ks, (ST.platforms k).isSome) :
    (ST.buildAllLoop env ks).2 = Ctl.ok () ∧
    mkdirPaths (ST.buildAllLoop env ks).1 = ks.map ST.pkgBundleDir := by
  induction ks with
  | nil => exact ⟨rfl, rfl⟩
  | cons q r ih =>
    have hq := st_buildPackage_snd_ok env (hsome q (by simp))
      (hok q (by simp))
    have hqm := st_buildPackage_mkdirPaths env (hsome q (by simp))
    obtain ⟨ih1, ih2⟩ := ih (fun k hk => hok k (by simp [hk]))
      (fun k hk => hsome k (by simp [hk]))
    unfold ST.buildAllLoop
    rcases hbp : ST.buildPackage env q with ⟨e, c⟩
    rw [hbp] at hq hqm
    simp only at hq
    subst hq
    rcases hloop : ST.buildAllLoop env r with ⟨e2, c2⟩
    rw [hloop] at ih1 ih2
    simp only at ih1 ih2
    subst ih1
    simp [mkdirPaths_append, hqm, ih2]

theorem st_buildAllLoop_split (env : Env) (l₁ : List String) (p : String)
    (l₂ : List String) (h1 : ∀ k ∈ l₁, env.pkgFault k = false)
    (hp : env.pkgFault p = true)
    (hsome : ∀ k ∈ l₁ ++ p :: l₂, (ST.platforms k).isSome) :
    (ST.buildAllLoop env (l₁ ++ p :: l₂)).2 = Ctl.threw ∧
    mkdirPaths (ST.buildAllLoop env (l₁ ++ p :: l₂)).1 =
      (l₁ ++ [p]).map ST.pkgBundleDir := by
  induction l₁ with
  | nil =>
    have hb := st_buildPackage_fault env (hsome p (by simp)) hp
    simp only [List.nil_append]
    unfold ST.buildAllLoop
    rw [hb]
    simp [mkdirPaths]
  | cons q r ih =>
    have hq := st_buildPackage_snd_ok env (hsome q (by simp))
      (h1 q (by simp))
    have hqm := st_buildPackage_mkdirPaths env (hsome q (by simp))
    obtain ⟨ih1, ih2⟩ := ih (fun k hk => h1 k (by simp [hk]))
      (fun k hk => hsome k (by
        rcases List.mem_append.mp hk with hk1 | hk1 <;> simp [hk1]))
    simp only [List.cons_append]
    unfold ST.buildAllLoop
    rcases hbp : ST.buildPackage env q with ⟨e, c⟩
    rw [hbp] at hq hqm
    simp only at hq
    subst hq
    rcases hloop : ST.buildAllLoop env (r ++ p :: l₂) with ⟨e2, c2⟩
    rw [hloop] at ih1 ih2
    simp only at ih1 ih2
    subst ih1
    simp [mkdirPaths_append, hqm, ih2]

theorem st_buildAllLoop_hasRm (env : Env) (ks : List String) :
    hasRm (ST.buildAllLoop env ks).1 = false := by
  induction ks with
  | nil => rfl
  | cons q r ih =>
    unfold ST.buildAllLoop
    rcases hbp : ST.buildPackage env q with ⟨e, c⟩
    have he := st_buildPackage_hasRm env q
    rw [hbp] at he
    simp only at he
    rcases hloop : ST.buildAllLoop env r with ⟨e2, c2⟩
    rw [hloop] at ih
    simp only at ih
    cases c <;> simp [hasRm_append, he, ih]

theorem st_buildAllLoop_no_error (env : Env) (ks : List String)
    (hsome : ∀ k ∈ ks, (ST.platforms k).isSome) (m : String) :
    Ev.error m ∉ (ST.buildAllLoop env ks).1 := by
  induction ks with
  | nil => simp [ST.buildAllLoop]
  | cons q r ih =>
    unfold ST.buildAllLoop
    rcases hbp : ST.buildPackage env q with ⟨e, c⟩
    have he := st_buildPackage_no_error env (hsome q (by simp)) m
    rw [hbp] at he
    simp only at he
    have ih2 := ih (fun k hk => hsome k (by simp [hk]))
    rcases hloop : ST.buildAllLoop env r with ⟨e2, c2⟩
    rw [hloop] at ih2
    simp only at ih2
    cases c <;> simp_all

theorem st_buildAllLoop_mkdir_mem (env : Env) {p : String} {ks : List String}
    (h : p ∈ ks) (hsome : ∀ k ∈ ks, (ST.platforms k).isSome) :
    Ev.mkdir (ST.pkgBundleDir p) ∈ (ST.buildAllLoop env ks).1 ∨
      (ST.buildAllLoop env ks).2 = Ctl.threw ∨
      (∃ n, (ST.buildAllLoop env ks).2 = Ctl.exited n) := by
  induction ks with
  | nil => cases h
  | cons q r ih =>
    unfold ST.buildAllLoop
    rcases hbp : ST.buildPackage env q with ⟨e, c⟩
    rcases List.mem_cons.mp h with h1 | h2
    · subst h1
      have hm := st_buildPackage_mkdirPaths env (hsome p (by simp))
      rw [hbp] at hm
      simp only at hm
      have : Ev.mkdir (ST.pkgBundleDir p) ∈ e := by
        rw [mkdir_mem_iff, hm]
        simp
      rcases hloop : ST.buildAllLoop env r with ⟨e2, c2⟩
      cases c <;> simp [this]
    · have := ih h2 (fun k hk => hsome k (by simp [hk]))
      rcases hloop : ST.buildAllLoop env r with ⟨e2, c2⟩
      rw [hloop] at this
      simp only at this
      cases c <;> (simp_all; try tauto)

theorem st_main_hasRm (env : Env) (args : List String) :
    hasRm (ST.main env args).1 = false := by
  rcases hEB : ST.ensureBundle env with ⟨bev, c⟩
  have hrm : hasRm bev = false := by
    have := st_ensureBundle_hasRm env
    rw [hEB] at this
    exact this
  cases c with
  | ok bp =>
    by_cases hall : "--all" ∈ args
    · rcases hloop : ST.buildAllLoop env ST.platformsKeys with ⟨e, c2⟩
      have he : hasRm e = false := by
        have := st_buildAllLoop_hasRm env ST.platformsKeys
        rw [hloop] at this
        exact this
      cases c2 <;>
        simp [ST.main, hEB, hall, hloop, hasRm_append, hasRm_cons, hasRm_nil,
          isRmEv, hrm, he]
    · rcases hsp : args.find? (fun a => !(strHasPrefix a "--")) with _ | sp
      · rcases hbp : ST.buildPackage env
            (ST.getCurrentPlatform env.hostPlatform env.hostArch) with ⟨e, c2⟩
        have he : hasRm e = false := by
          have := st_buildPackage_hasRm env
            (ST.getCurrentPlatform env.hostPlatform env.hostArch)
          rw [hbp] at this
          exact this
        cases c2 <;>
          simp [ST.main, hEB, hall, hsp, hbp, hasRm_append, hasRm_cons,
            hasRm_nil, isRmEv, hrm, he]
      · by_cases hemp : sp = ""
        · rcases hbp : ST.buildPackage env
              (ST.getCurrentPlatform env.hostPlatform env.hostArch) with ⟨e, c2⟩
          have he : hasRm e = false := by
            have := st_buildPackage_hasRm env
              (ST.getCurrentPlatform env.hostPlatform env.hostArch)
            rw [hbp] at this
            exact this
          cases c2 <;>
            simp [ST.main, hEB, hall, hsp, hemp, hbp, hasRm_append, hasRm_cons,
              hasRm_nil, isRmEv, hrm, he]
        · by_cases htg : (ST.platforms sp).isSome
          · rcases hbp : ST.buildPackage env sp with ⟨e, c2⟩
            have he : hasRm e = false := by
              have := st_buildPackage_hasRm env sp
              rw [hbp] at this
              exact this
            cases c2 <;>
              simp [ST.main, hEB, hall, hsp, hemp, htg, hbp, hasRm_append,
                hasRm_cons, hasRm_nil, isRmEv, hrm, he]
          · simp [ST.main, hEB, hall, hsp, hemp, htg, hasRm_append, hasRm_cons,
              hasRm_nil, isRmEv, hrm]
  | exited n => simp [ST.main, hEB, hrm]
  | threw => simp [ST.main, hEB, hrm]

theorem st_main_all_ok (env : Env) (args : List String)
    (hall : args.contains "--all" = true)
    (hbok : (env.bundleExists || env.bundleBuildOk) = true)
    (hok : ∀ k, env.pkgFault k = false) :
    (ST.main env args).2 = 0 ∧
    ∀ p ∈ ST.platformsKeys, Ev.mkdir (ST.pkgBundleDir p) ∈ (ST.main env args).1 := by
  obtain ⟨bev, hEB, hrm, hmk, hwr, herr⟩ := st_ensureBundle_ok env hbok
  have hall2 : "--all" ∈ args := by simpa using hall
  obtain ⟨hc, hm⟩ := st_buildAllLoop_ok env ST.platformsKeys
    (fun k _ => hok k) (fun k hk => st_platforms_isSome_of_mem hk)
  rcases hloop : ST.buildAllLoop env ST.platformsKeys with ⟨e, c2⟩
  rw [hloop] at hc hm
  simp only at hc hm
  subst hc
  constructor
  · simp [ST.main, hEB, hall2, hloop]
  · intro p hp
    have hme : Ev.mkdir (ST.pkgBundleDir p) ∈ e := by
      rw [mkdir_mem_iff, hm]
      exact List.mem_map_of_mem _ hp
    simp [ST.main, hEB, hall2, hloop, hme]

theorem st_main_all_split (env : Env) (args : List String)
    (l₁ : List String) (p : String) (l₂ : List String)
    (hall : args.contains "--all" = true)
    (hbok : (env.bundleExists || env.bundleBuildOk) = true)
    (hkeys : ST.platformsKeys = l₁ ++ p :: l₂)
    (h1 : ∀ k ∈ l₁, env.pkgFault k = false) (hp : env.pkgFault p = true) :
    (ST.main env args).2 = 1 ∧
    Ev.mkdir (ST.pkgBundleDir p) ∈ (ST.main env args).1 ∧
    ∀ q ∈ l₂, Ev.mkdir (ST.pkgBundleDir q) ∉ (ST.main env args).1 := by
  obtain ⟨bev, hEB, hrm, hmk, hwr, herr⟩ := st_ensureBundle_ok env hbok
  have hall2 : "--all" ∈ args := by simpa using hall
  have hsome : ∀ k ∈ l₁ ++ p :: l₂, (ST.platforms k).isSome := by
    intro k hk
    exact st_platforms_isSome_of_mem (hkeys ▸ hk)
  obtain ⟨hc, hm⟩ := st_buildAllLoop_split env l₁ p l₂ h1 hp hsome
  rw [← hkeys] at hc hm
  rcases hloop : ST.buildAllLoop env ST.platformsKeys with ⟨e, c2⟩
  rw [hloop] at hc hm
  simp only at hc hm
  subst hc
  refine ⟨?_, ?_, ?_⟩
  · simp [ST.main, hEB, hall2, hloop]
  · have hme : Ev.mkdir (ST.pkgBundleDir p) ∈ e := by
      rw [mkdir_mem_iff, hm]
      simp
    simp [ST.main, hEB, hall2, hloop, hme]
  · intro q hq hmem
    have hnd := st_platformsKeys_nodup
    rw [hkeys] at hnd
    obtain ⟨-, hnd2, hdisj⟩ := List.nodup_append.mp hnd
    have hql : q ∉ l₁ := fun hql => hdisj hql (by simp [hq])
    have hqp : q ≠ p := by
      intro hqp
      subst hqp
      exact (List.nodup_cons.mp hnd2).1 hq
    simp [ST.main, hEB, hall2, hloop] at hmem
    rcases hmem with hmem | hmem | hmem
    · have := mkdir_mem_iff (ST.pkgBundleDir q) bev
      rw [hmk] at this
      simp [this] at hmem
    · exact absurd hmem (by simp [ST.pkgBundleDir, ST.distDir])
    · have := mkdir_mem_iff (ST.pkgBundleDir q) e
      rw [hm] at this
      have hin := this.mp hmem
      rcases List.mem_map.mp hin with ⟨k, hk, hqk⟩
      have : q = k := st_pkgBundleDir_inj hqk.symm
      subst this
      rcases List.mem_append.mp hk with hk1 | hk1
      · exact hql hk1
      · exact hqp (by simpa using hk1)

theorem st_main_fatal_bundle (env : Env) (args : List String)
    (h1 : env.bundleExists = false) (h2 : env.bundleBuildOk = false) :
    (ST.main env args).2 = 1 ∧ ∀ p, Ev.mkdir p ∉ (ST.main env args).1 := by
  have hEB := st_ensureBundle_fail env h1 h2
  constructor
  · simp [ST.main, hEB]
  · intro p
    simp [ST.main, hEB]

theorem st_main_unknown (env : Env) (args : List String) (sp : String)
    (hall : args.contains "--all" = false)
    (hsp : args.find? (fun a => !(strHasPrefix a "--")) = some sp)
    (hne : sp ≠ "") (hunk : ST.platforms sp = none)
    (hbok : (env.bundleExists || env.bundleBuildOk) = true) :
    (ST.main env args).2 = 1 ∧
    Ev.error ("Unknown platform: " ++ sp) ∈ (ST.main env args).1 ∧
    Ev.log ("Available: " ++ String.intercalate ", " ST.platformsKeys) ∈
      (ST.main env args).1 ∧
    writtenPaths (ST.main env args).1 = [] ∧
    mkdirPaths (ST.main env args).1 = [ST.distDir] ∧
    hasRm (ST.main env args).1 = false := by
  obtain ⟨bev, hEB, hrm, hmk, hwr, herr⟩ := st_ensureBundle_ok env hbok
  have hall2 : "--all" ∉ args := by simpa using hall
  refine ⟨?_, ?_, ?_, ?_, ?_, ?_⟩
  · simp [ST.main, hEB, hall2, hsp, hne, hunk]
  · simp [ST.main, hEB, hall2, hsp, hne, hunk]
  · simp [ST.main, hEB, hall2, hsp, hne, hunk]
  · simp [ST.main, hEB, hall2, hsp, hne, hunk, writtenPaths_append,
      writtenPaths, evWrites, hwr]
  · simp [ST.main, hEB, hall2, hsp, hne, hunk, mkdirPaths_append,
      mkdirPaths, hmk]
  · simp [ST.main, hEB, hall2, hsp, hne, hunk, hasRm_append, hasRm_cons,
      hasRm_nil, isRmEv, hrm]

theorem st_main_no_unknown (env : Env) (args : List String) (s : String)
    (hall : args.contains "--all" = true) :
    Ev.error ("Unknown platform: " ++ s) ∉ (ST.main env args).1 := by
  have hall2 : "--all" ∈ args := by simpa using hall
  rcases hEB : ST.ensureBundle env with ⟨bev, c⟩
  have hbe : Ev.error ("Unknown platform: " ++ s) ∉ bev := by
    have := st_ensureBundle_no_error env ("Unknown platform: " ++ s)
    rw [hEB] at this
    exact this
  cases c with
  | ok bp =>
    rcases hloop : ST.buildAllLoop env ST.platformsKeys with ⟨e, c2⟩
    have he : Ev.error ("Unknown platform: " ++ s) ∉ e := by
      have := st_buildAllLoop_no_error env ST.platformsKeys
        (fun k hk => st_platforms_isSome_of_mem hk) ("Unknown platform: " ++ s)
      rw [hloop] at this
      exact this
    cases c2 <;> simp [ST.main, hEB, hall2, hloop, hbe, he]
  | exited n => simp [ST.main, hEB, hbe]
  | threw => simp [ST.main, hEB, hbe]

theorem childName_append (d : FPath) (c : String) (r : List String) :
    childName d (d ++ c :: r) = some c := by
  unfold childName
  rw [if_pos (List.isPrefixOf_iff_prefix.mpr ⟨c :: r, rfl⟩)]
  rw [List.getElem?_append_right (Nat.le_refl d.length)]
  simp

/-! ### Claim theorems -/

/-- C2: in both scripts, host-platform detection is a pure function of the
(OS, architecture) pair: `(win32, any)` maps to `win-x64`; `(darwin,
arm64)` to `mac-arm64`; `(darwin, other)` to `mac-x64`; `(other, arm64)`
to `linux-arm64`; `(other, other)` to `linux-x64`; and the two scripts'
detection functions agree everywhere. -/
theorem c2_host_platform_detection :
    (∀ a, SF.getCurrentPlatform "win32" a = "win-x64") ∧
    SF.getCurrentPlatform "darwin" "arm64" = "mac-arm64" ∧
    (∀ a, a ≠ "arm64" → SF.getCurrentPlatform "darwin" a = "mac-x64") ∧
    (∀ p, p ≠ "win32" → p ≠ "darwin" →
      SF.getCurrentPlatform p "arm64" = "linux-arm64") ∧
    (∀ p a, p ≠ "win32" → p ≠ "darwin" → a ≠ "arm64" →
      SF.getCurrentPlatform p a = "linux-x64") ∧
    (∀ p a, ST.getCurrentPlatform p a = SF.getCurrentPlatform p a) := by
  refine ⟨?_, ?_, ?_, ?_, ?_, ?_⟩
  · intro a
    simp [SF.getCurrentPlatform]
  · simp [SF.getCurrentPlatform]
  · intro a ha
    simp [SF.getCurrentPlatform, ha]
  · intro p h1 h2
    simp [SF.getCurrentPlatform, h1, h2]
  · intro p a h1 h2 h3
    simp [SF.getCurrentPlatform, h1, h2, h3]
  · intro p a
    rfl

/-- Witness for C2: a host that is neither Windows nor macOS with a
non-arm64 architecture is detected as `linux-x64`. -/
theorem c2_host_platform_detection_witness :
    SF.getCurrentPlatform "sunos" "ia32" = "linux-x64" :=
  c2_host_platform_detection.2.2.2.2.1 "sunos" "ia32" (by decide) (by decide)
    (by decide)

/-- C7: launcher-script generation in the standalone-package variant is
deterministic (it is a pure function here) and idempotent: running the
generated write events twice leaves the same file system as running them
once, and the written contents depend only on the Windows/non-Windows
distinction, not on the platform directory. -/
theorem c7_launcher_idempotent :
    (∀ d w fs, applyEvents fs (ST.createLauncher d w ++ ST.createLauncher d w) =
      applyEvents fs (ST.createLauncher d w)) ∧
    (∀ d d2 w, writtenContents (ST.createLauncher d w) =
      writtenContents (ST.createLauncher d2 w)) ∧
    (∀ d, writtenContents (ST.createLauncher d true) =
      [ST.batContent, ST.batContent]) ∧
    (∀ d, writtenContents (ST.createLauncher d false) =
      [ST.shContent, ST.shContent]) := by
  refine ⟨?_, ?_, ?_, ?_⟩
  · intro d w fs
    funext q
    rw [applyEvents_append]
    cases w <;>
      simp [ST.createLauncher, applyEvents, applyEv] <;>
      split_ifs <;> rfl
  · intro d d2 w
    cases w <;> simp [ST.createLauncher, writtenContents]
  · intro d
    simp [ST.createLauncher, writtenContents]
  · intro d
    simp [ST.createLauncher, writtenContents]

/-- C9: the standalone-package driver never deletes anything: no run of
`ST.main` contains a recursive removal, and any file not written by the
run keeps its exact previous content. -/
theorem c9_no_deletion (env : Env) (args : List String) :
    hasRm (ST.main env args).1 = false ∧
    ∀ fs q, q ∉ writtenPaths (ST.main env args).1 →
      applyEvents fs (ST.main env args).1 q = fs q := by
  refine ⟨st_main_hasRm env args, ?_⟩
  intro fs q hw
  exact applyEvents_frame fs _ q hw
    (rmHits_eq_false_of_hasRm q _ (st_main_hasRm env args))

/-- Witness for C9: a full `--all` run of the standalone driver leaves
an unrelated pre-existing file untouched. -/
theorem c9_no_deletion_witness :
    applyEvents fs0 (ST.main envAll ["--all"]).1 ["keepme"] = fs0 ["keepme"] :=
  (c9_no_deletion envAll ["--all"]).2 fs0 ["keepme"] (by decide)

/-- C5 counterexample: with every native-addon directory absent, copying
native addons emits no warning at all (the `existsSync` guard silently
skips the copy), contradicting the claim that a warning is emitted. -/
theorem c5_missing_addons_counterexample :
    SF.copyNativeAddons envAll "linux-x64" (SF.distDir ++ ["linux-x64"]) =
      [Ev.checkExists ["node_modules", "@lydell/node-pty-linux-x64"]] ∧
    ST.copyNativeAddons envAll "linux-x64" (ST.pkgBundleDir "linux-x64") =
      [Ev.checkExists ["node_modules", "@lydell/node-pty-linux-x64"]] ∧
    hasWarn (SF.copyNativeAddons envAll "linux-x64"
      (SF.distDir ++ ["linux-x64"])) = false ∧
    hasWarn (ST.copyNativeAddons envAll "linux-x64"
      (ST.pkgBundleDir "linux-x64")) = false := by
  refine ⟨by decide, by decide, by decide, by decide⟩

/-- C5 amended: when the native-addon source directory does not exist,
copying native addons does not raise (the embedding is a total function
whose only event is the existence check), emits no warning, performs no
writes, and leaves every file system unchanged — identical to the
no-addon case.  A warning appears only when a file-system error occurs
inside the `try` block. -/
theorem c5_missing_addons_amended (env : Env) (platform : String) (d : FPath)
    (fs : FS) (h : ∀ s, env.ptyDirExists s = false) :
    hasWarn (SF.copyNativeAddons env platform d) = false ∧
    writtenPaths (SF.copyNativeAddons env platform d) = [] ∧
    applyEvents fs (SF.copyNativeAddons env platform d) = fs ∧
    hasWarn (ST.copyNativeAddons env platform d) = false ∧
    writtenPaths (ST.copyNativeAddons env platform d) = [] ∧
    applyEvents fs (ST.copyNativeAddons env platform d) = fs := by
  refine ⟨?_, ?_, ?_, ?_, ?_, ?_⟩
  · unfold SF.copyNativeAddons
    cases SF.ptyMap platform <;> simp [h, hasWarn]
  · unfold SF.copyNativeAddons
    cases SF.ptyMap platform <;> simp [h, writtenPaths, evWrites]
  · unfold SF.copyNativeAddons
    cases SF.ptyMap platform <;> simp [h, applyEvents, applyEv]
  · unfold ST.copyNativeAddons
    cases ST.ptyMap platform <;> simp [h, hasWarn]
  · unfold ST.copyNativeAddons
    cases ST.ptyMap platform <;> simp [h, writtenPaths, evWrites]
  · unfold ST.copyNativeAddons
    cases ST.ptyMap platform <;> simp [h, applyEvents, applyEv]

/-- Witness for C5 amended: concretely, with no addon directories the
copy step changes nothing on disk. -/
theorem c5_missing_addons_amended_witness :
    hasWarn (SF.copyNativeAddons envAll "mac-arm64"
      (SF.distDir ++ ["mac-arm64"])) = false ∧
    applyEvents fs0 (ST.copyNativeAddons envAll "mac-arm64"
      (ST.pkgBundleDir "mac-arm64")) = fs0 := by
  have h := c5_missing_addons_amended envAll "mac-arm64"
    (SF.distDir ++ ["mac-arm64"]) fs0 (fun _ => rfl)
  have h2 := c5_missing_addons_amended envAll "mac-arm64"
    (ST.pkgBundleDir "mac-arm64") fs0 (fun _ => rfl)
  exact ⟨h.1, h2.2.2.2.2.2⟩

/-- C4 counterexample: with the bundle absent and the external bundle
build succeeding, both scripts' bundle locators check the file's
existence exactly once — the claimed re-check after the external command
never happens (the locator returns the path unconditionally). -/
theorem c4_bundle_locator_counterexample :
    (SF.ensureBundle envNoBundle).1.count
      (Ev.checkExists (SF.bundleDir ++ ["gemini.js"])) = 1 ∧
    Ev.runCmd "npm run bundle" ∈ (SF.ensureBundle envNoBundle).1 ∧
    (ST.ensureBundle envNoBundle).1.count
      (Ev.checkExists (ST.bundleDir ++ ["gemini.js"])) = 1 ∧
    Ev.runCmd "npm run bundle" ∈ (ST.ensureBundle envNoBundle).1 := by
  refine ⟨by decide, by decide, by decide, by decide⟩

/-- C4 amended: the bundle locator checks the bundle file's existence
exactly once; if the file is absent it invokes the external
bundle-production command exactly once (zero times otherwise) and does
not re-check; a non-zero exit of that command is fatal to the whole run
(exit 1, no platform ever attempted); there is never more than one
attempt. -/
theorem c4_bundle_locator_amended (env : Env) (args : List String) :
    (SF.ensureBundle env).1.count
      (Ev.checkExists (SF.bundleDir ++ ["gemini.js"])) = 1 ∧
    ((SF.ensureBundle env).1.count (Ev.runCmd "npm run bundle") =
      if env.bundleExists then 0 else 1) ∧
    (ST.ensureBundle env).1.count
      (Ev.checkExists (ST.bundleDir ++ ["gemini.js"])) = 1 ∧
    ((ST.ensureBundle env).1.count (Ev.runCmd "npm run bundle") =
      if env.bundleExists then 0 else 1) ∧
    (env.bundleExists = false → env.bundleBuildOk = false →
      env.bunAvailable = true →
      (SF.main env args).2 = 1 ∧
      ∀ p, Ev.mkdir (SF.distDir ++ [p]) ∉ (SF.main env args).1) ∧
    (env.bundleExists = false → env.bundleBuildOk = false →
      (ST.main env args).2 = 1 ∧ ∀ p, Ev.mkdir p ∉ (ST.main env args).1) := by
  refine ⟨?_, ?_, ?_, ?_, ?_, ?_⟩
  · by_cases h1 : env.bundleExists
    · simp [SF.ensureBundle, h1]
    · by_cases h2 : env.bundleBuildOk <;>
        simp [SF.ensureBundle, SF.run, h1, h2]
  · by_cases h1 : env.bundleExists
    · simp [SF.ensureBundle, h1]
    · by_cases h2 : env.bundleBuildOk <;>
        simp [SF.ensureBundle, SF.run, h1, h2]
  · by_cases h1 : env.bundleExists
    · simp [ST.ensureBundle, h1]
    · by_cases h2 : env.bundleBuildOk <;>
        simp [ST.ensureBundle, ST.run, h1, h2]
  · by_cases h1 : env.bundleExists
    · simp [ST.ensureBundle, h1]
    · by_cases h2 : env.bundleBuildOk <;>
        simp [ST.ensureBundle, ST.run, h1, h2]
  · intro h1 h2 hbun
    exact sf_main_fatal_bundle env args h1 h2 hbun
  · intro h1 h2
    exact st_main_fatal_bundle env args h1 h2

/-- Witness for C4 amended: with the bundle absent and its build
failing, both drivers exit 1 and never start a platform build. -/
theorem c4_bundle_locator_amended_witness :
    (SF.main envNoBundleBad ["linux-x64"]).2 = 1 ∧
    Ev.mkdir (SF.distDir ++ ["linux-x64"]) ∉
      (SF.main envNoBundleBad ["linux-x64"]).1 ∧
    (ST.main envNoBundleBad ["linux-x64"]).2 = 1 := by
  have h := c4_bundle_locator_amended envNoBundleBad ["linux-x64"]
  have h5 := h.2.2.2.2.1 (by decide) (by decide) (by decide)
  have h6 := h.2.2.2.2.2 (by decide) (by decide)
  exact ⟨h5.1, h5.2 "linux-x64", h6.1⟩

/-- C3 counterexample: an unknown platform key does make the driver exit
with code 1, but not before the single-file driver has wiped the
pre-existing output root: a stale file inside `dist-single` is deleted
by the run, contradicting "performs no filesystem modification before
exiting". -/
theorem c3_unknown_platform_counterexample :
    (SF.main envAll ["bogus"]).2 = 1 ∧
    Ev.rmTree SF.distDir ∈ (SF.main envAll ["bogus"]).1 ∧
    fs0 ["dist-single", "stale.txt"] = some "stale" ∧
    applyEvents fs0 (SF.main envAll ["bogus"]).1
      ["dist-single", "stale.txt"] = none := by
  refine ⟨by decide, by decide, by decide, by decide⟩

theorem st_platforms_eq_none_of_sf (sp : String) (h : SF.targets sp = none) :
    ST.platforms sp = none := by
  unfold SF.targets at h
  unfold ST.platforms
  split_ifs at h ⊢
  all_goals simp_all


/-- C3 amended: given a non-empty platform-key argument not in the table
(and no `--all`), each driver exits 1, prints the unknown-platform error
and the exact set of valid keys, and attempts no platform build — but
filesystem work does precede the exit: the single-file driver has
already deleted (when present) and recreated its output root, the
standalone driver has already created its output root, and either driver
may have run the external bundle build. -/
theorem c3_unknown_platform_amended (env : Env) (args : List String)
    (sp : String) (hall : args.contains "--all" = false)
    (hsp : args.find? (fun a => !(strHasPrefix a "--")) = some sp)
    (hne : sp ≠ "") (hunk : SF.targets sp = none)
    (hbun : env.bunAvailable = true)
    (hbok : (env.bundleExists || env.bundleBuildOk) = true) :
    ((SF.main env args).2 = 1 ∧
     Ev.error ("Unknown platform: " ++ sp) ∈ (SF.main env args).1 ∧
     Ev.log ("Available: " ++ String.intercalate ", " SF.targetsKeys) ∈
       (SF.main env args).1 ∧
     writtenPaths (SF.main env args).1 = [] ∧
     mkdirPaths (SF.main env args).1 = [SF.distDir] ∧
     ∀ p, Ev.rmTree p ∈ (SF.main env args).1 → p = SF.distDir) ∧
    ((ST.main env args).2 = 1 ∧
     Ev.error ("Unknown platform: " ++ sp) ∈ (ST.main env args).1 ∧
     Ev.log ("Available: " ++ String.intercalate ", " ST.platformsKeys) ∈
       (ST.main env args).1 ∧
     writtenPaths (ST.main env args).1 = [] ∧
     mkdirPaths (ST.main env args).1 = [ST.distDir] ∧
     hasRm (ST.main env args).1 = false) :=
  ⟨sf_main_unknown env args sp hall hsp hne hunk hbun hbok,
   st_main_unknown env args sp hall hsp hne
     (st_platforms_eq_none_of_sf sp hunk) hbok⟩

/-- Witness for C3 amended: a concrete run with the unknown key
`bogus`. -/
theorem c3_unknown_platform_amended_witness :
    (SF.main envAll ["bogus"]).2 = 1 ∧
    Ev.error ("Unknown platform: " ++ "bogus") ∈ (SF.main envAll ["bogus"]).1 ∧
    (ST.main envAll ["bogus"]).2 = 1 ∧
    mkdirPaths (ST.main envAll ["bogus"]).1 = [ST.distDir] := by
  have h := c3_unknown_platform_amended envAll ["bogus"] "bogus" (by decide)
    (by decide) (by decide) (by decide) (by decide) (by decide)
  exact ⟨h.1.1, h.1.2.1, h.2.1, h.2.2.2.2.2.1⟩

/-- C1: in `--all` mode the two variants differ in failure tolerance.
Single-file driver: every platform of the table gets a build attempt
(its output directory is created) no matter which external compiles
fail, each failure is reported and the run still exits 0.
Standalone-package driver: if the first faulting table entry is `p`
(all entries before it succeed, `p`'s package build throws), the process
exits 1 and no platform after `p` is ever attempted. -/
theorem c1_all_mode_failure_tolerance (env : Env) (args : List String)
    (hall : args.contains "--all" = true)
    (hbok : (env.bundleExists || env.bundleBuildOk) = true) :
    (env.bunAvailable = true →
      (∀ p ∈ SF.targetsKeys,
        Ev.mkdir (SF.distDir ++ [p]) ∈ (SF.main env args).1) ∧
      (∀ p ∈ SF.targetsKeys, env.compileOk p = false →
        Ev.error ("Failed to build for " ++ p) ∈ (SF.main env args).1) ∧
      (SF.main env args).2 = 0) ∧
    (∀ l₁ p l₂, ST.platformsKeys = l₁ ++ p :: l₂ →
      (∀ k ∈ l₁, env.pkgFault k = false) → env.pkgFault p = true →
      (ST.main env args).2 = 1 ∧
      Ev.mkdir (ST.pkgBundleDir p) ∈ (ST.main env args).1 ∧
      ∀ q ∈ l₂, Ev.mkdir (ST.pkgBundleDir q) ∉ (ST.main env args).1) := by
  constructor
  · intro hbun
    obtain ⟨h0, h1, h2⟩ := sf_main_all env args hall hbun hbok
    exact ⟨h1, h2, h0⟩
  · intro l₁ p l₂ hkeys h1 hp
    exact st_main_all_split env args l₁ p l₂ hall hbok hkeys h1 hp

/-- Witness for C1: with the first table entry (`linux-x64`) failing in
both variants, the single-file driver still reaches `win-x64` (the last
entry) and exits 0, while the standalone driver exits 1 without ever
creating `win-x64`'s package directory. -/
theorem c1_all_mode_failure_tolerance_witness :
    Ev.mkdir (SF.distDir ++ ["win-x64"]) ∈
      (SF.main envFaultFirst ["--all"]).1 ∧
    Ev.error ("Failed to build for " ++ "linux-x64") ∈
      (SF.main envFaultFirst ["--all"]).1 ∧
    (SF.main envFaultFirst ["--all"]).2 = 0 ∧
    (ST.main envFaultFirst ["--all"]).2 = 1 ∧
    Ev.mkdir (ST.pkgBundleDir "win-x64") ∉
      (ST.main envFaultFirst ["--all"]).1 := by
  have h := c1_all_mode_failure_tolerance envFaultFirst ["--all"]
    (by decide) (by decide)
  obtain ⟨hsf, hst⟩ := h
  obtain ⟨ha, hb, hc⟩ := hsf (by decide)
  obtain ⟨hd, he, hf⟩ := hst []
    "linux-x64" ["linux-arm64", "mac-x64", "mac-arm64", "win-x64"] rfl
    (by simp) (by decide)
  exact ⟨ha "win-x64" (by decide), hb "linux-x64" (by decide) (by decide),
    hc, hd, hf "win-x64" (by decide)⟩

/-- C8: `--all` takes absolute precedence in both drivers: when the
argument list contains `--all`, the unknown-platform error is never
produced for any key, and (when the prerequisites are healthy and no
per-platform step fails) every table entry is built and the run exits
0 — an extra unknown key alongside `--all` is never validated. -/
theorem c8_all_precedence (env : Env) (args : List String)
    (hall : args.contains "--all" = true) :
    (∀ s, Ev.error ("Unknown platform: " ++ s) ∉ (SF.main env args).1) ∧
    (∀ s, Ev.error ("Unknown platform: " ++ s) ∉ (ST.main env args).1) ∧
    (env.bunAvailable = true → (env.bundleExists || env.bundleBuildOk) = true →
      (SF.main env args).2 = 0 ∧
      ∀ p ∈ SF.targetsKeys,
        Ev.mkdir (SF.distDir ++ [p]) ∈ (SF.main env args).1) ∧
    ((env.bundleExists || env.bundleBuildOk) = true →
      (∀ k, env.pkgFault k = false) →
      (ST.main env args).2 = 0 ∧
      ∀ p ∈ ST.platformsKeys,
        Ev.mkdir (ST.pkgBundleDir p) ∈ (ST.main env args).1) := by
  refine ⟨fun s => sf_main_no_unknown env args s hall,
    fun s => st_main_no_unknown env args s hall, ?_, ?_⟩
  · intro hbun hbok
    obtain ⟨h0, h1, -⟩ := sf_main_all env args hall hbun hbok
    exact ⟨h0, h1⟩
  · intro hbok hok
    exact st_main_all_ok env args hall hbok hok

/-- Witness for C8: `--all` together with the unknown key `bogus` never
produces the unknown-platform error and both drivers exit 0. -/
theorem c8_all_precedence_witness :
    Ev.error ("Unknown platform: " ++ "bogus") ∉
      (SF.main envAll ["--all", "bogus"]).1 ∧
    (SF.main envAll ["--all", "bogus"]).2 = 0 ∧
    (ST.main envAll ["--all", "bogus"]).2 = 0 := by
  have h := c8_all_precedence envAll ["--all", "bogus"] (by decide)
  exact ⟨h.1 "bogus", (h.2.2.1 (by decide) (by decide)).1,
    (h.2.2.2 (by decide) (fun k => rfl)).1⟩

theorem childName_cons2 (a g c : String) (r : List String) :
    childName [a, g] (a :: g :: c :: r) = some c := by
  have hp : [a, g].isPrefixOf (a :: g :: c :: r) = true := by
    simp [List.isPrefixOf]
  unfold childName
  rw [if_pos hp]
  simp

/-- C6: the single-file driver wipes its output root up front: whenever
Bun is available and the root pre-exists, the run's trace begins with
the existence check, the recursive delete and the recreation of
`dist-single` before anything else (and contains no other delete), so a
file strictly inside the root that the run does not itself write is gone
after the run. -/
theorem c6_clean_slate (env : Env) (args : List String) (fs : FS) (q : FPath)
    (hbun : env.bunAvailable = true) (hdist : env.distExists = true) :
    (∃ rest, (SF.main env args).1 =
        Ev.runCmd "bun --version" :: Ev.checkExists SF.distDir ::
          Ev.rmTree SF.distDir :: Ev.mkdir SF.distDir :: rest ∧
        hasRm rest = false) ∧
    (SF.distDir.isPrefixOf q = true → q ≠ SF.distDir →
      q ∉ writtenPaths (SF.main env args).1 →
      applyEvents fs (SF.main env args).1 q = none) := by
  obtain ⟨rest, htr, hr⟩ := sf_main_clean env args hbun hdist
  refine ⟨⟨rest, htr, hr⟩, ?_⟩
  intro hpre hne hw
  rw [htr] at hw ⊢
  have hw2 : q ∉ writtenPaths rest := by
    simp only [writtenPaths, evWrites, List.nil_append] at hw
    exact hw
  have hrh : rmHits q rest = false := rmHits_eq_false_of_hasRm q rest hr
  simp only [applyEvents]
  rw [applyEvents_frame _ rest q hw2 hrh]
  simp [applyEv, hpre]

/-- Witness for C6: a stale file inside `dist-single` does not survive a
concrete single-platform run. -/
theorem c6_clean_slate_witness :
    applyEvents fs0 (SF.main envAll ["mac-x64"]).1
      ["dist-single", "stale.txt"] = none :=
  (c6_clean_slate envAll ["mac-x64"] fs0 ["dist-single", "stale.txt"]
    (by decide) (by decide)).2 (by decide) (by decide) (by decide)

/-- C10: in the standalone-package variant, native-addon files (like all
copied files) land in the package's `bundle/` subdirectory, not the
package root; every path the build writes or creates sits either below
`bundle/` or is one of the two launcher scripts or `README.txt`; and
those four direct entries of the package root are all actually
produced. -/
theorem c10_package_root_layout (env : Env) (k : String)
    (hk : k ∈ ST.platformsKeys) (hf : env.pkgFault k = false) :
    (∀ s d, Ev.copyFile s d ∈ (ST.buildPackage env k).1 →
      ∃ f, d = ST.distDir ++ ["gsharp-" ++ k, "bundle", f]) ∧
    (∀ q ∈ writtenPaths (ST.buildPackage env k).1 ++
        mkdirPaths (ST.buildPackage env k).1,
      childName (ST.distDir ++ ["gsharp-" ++ k]) q = some "bundle" ∨
      q = ST.distDir ++ ["gsharp-" ++ k,
        if strHasPrefix k "win" then "gsharp.cmd" else "gsharp"] ∨
      q = ST.distDir ++ ["gsharp-" ++ k,
        if strHasPrefix k "win" then "gemini-sharp.cmd" else "gemini-sharp"] ∨
      q = ST.distDir ++ ["gsharp-" ++ k, "README.txt"]) ∧
    Ev.mkdir (ST.distDir ++ ["gsharp-" ++ k, "bundle"]) ∈
      (ST.buildPackage env k).1 ∧
    ST.distDir ++ ["gsharp-" ++ k,
        if strHasPrefix k "win" then "gsharp.cmd" else "gsharp"] ∈
      writtenPaths (ST.buildPackage env k).1 ∧
    ST.distDir ++ ["gsharp-" ++ k,
        if strHasPrefix k "win" then "gemini-sharp.cmd" else "gemini-sharp"] ∈
      writtenPaths (ST.buildPackage env k).1 ∧
    ST.distDir ++ ["gsharp-" ++ k, "README.txt"] ∈
      writtenPaths (ST.buildPackage env k).1 := by
  have hsome := st_platforms_isSome_of_mem hk
  rcases Option.isSome_iff_exists.mp hsome with ⟨cfg, hcfg⟩
  refine ⟨?_, ?_, ?_, ?_, ?_, ?_⟩
  · intro s d hd
    cases hw : strHasPrefix k "win" <;>
      (simp [ST.buildPackage, hcfg, hf, hw, ST.createLauncher] at hd
       rcases hd with ⟨f, -, -, hdd⟩ | hd <;>
         first
           | exact ⟨f, hdd.symm⟩
           | (obtain ⟨f2, hdd2⟩ := st_copyNativeAddons_copy_dest env k _ s d hd
              exact ⟨f2, by simp [hdd2]⟩))
  · intro q hq
    cases hw : strHasPrefix k "win" <;>
      (simp [ST.buildPackage, hcfg, hf, hw, ST.createLauncher, writtenPaths,
         evWrites, writtenPaths_append, writtenPaths_map_copy, mkdirPaths,
         mkdirPaths_append, mkdirPaths_map_copy,
         st_copyNativeAddons_mkdirPaths] at hq
       rcases hq with ⟨f, -, hfq⟩ | hq | hq | hq | hq | hq <;>
         first
           | (left
              rw [← hfq]
              simp only [ST.distDir, List.cons_append, List.nil_append]
              exact childName_cons2 _ _ _ _)
           | (obtain ⟨f, hfq⟩ := st_copyNativeAddons_written env k _ q hq
              left
              rw [hfq]
              simp only [ST.distDir, List.cons_append, List.nil_append,
                List.append_assoc]
              exact childName_cons2 _ _ _ _)
           | (left
              rw [hq]
              simp only [ST.distDir, List.cons_append, List.nil_append]
              exact childName_cons2 _ _ _ _)
           | (simp [hq, hw]))
  · simp [ST.buildPackage, hcfg, hf]
  · cases hw : strHasPrefix k "win" <;>
      simp [ST.buildPackage, ST.createLauncher, hcfg, hf, hw, writtenPaths,
        evWrites, writtenPaths_append, writtenPaths_map_copy]
  · cases hw : strHasPrefix k "win" <;>
      simp [ST.buildPackage, ST.createLauncher, hcfg, hf, hw, writtenPaths,
        evWrites, writtenPaths_append, writtenPaths_map_copy]
  · cases hw : strHasPrefix k "win" <;>
      simp [ST.buildPackage, ST.createLauncher, hcfg, hf, hw, writtenPaths,
        evWrites, writtenPaths_append, writtenPaths_map_copy]

/-- Witness for C10: for the concrete `linux-x64` package the bundle
directory is created and the README is written at the package root. -/
theorem c10_package_root_layout_witness :
    Ev.mkdir (ST.distDir ++ ["gsharp-linux-x64", "bundle"]) ∈
      (ST.buildPackage envAll "linux-x64").1 ∧
    ST.distDir ++ ["gsharp-linux-x64", "README.txt"] ∈
      writtenPaths (ST.buildPackage envAll "linux-x64").1 := by
  have h := c10_package_root_layout envAll "linux-x64" (by decide) (by decide)
  exact ⟨h.2.2.1, h.2.2.2.2.2⟩
